/-
  Verification of the TrapValueGame data pipeline against its specification.

  Shallow embedding of the Python sources:
    * scripts/services/snapshot_generator.py  (generate_snapshots, compute_outcome,
      classify_outcome, classify_difficulty)
    * scripts/services/extractor.py           (YFinanceExtractor.fetch_financials,
      _extract_year)
    * scripts/api/game.py                     (reveal_outcome, get_financials_for_snapshot)
    * scripts/api/admin.py                    (seed_single_ticker, seed_tickers_with_rate_limit)

  Modelling conventions:
    * Calendar dates are day numbers (Int); `timedelta(days=n)` is `+ n`.
      `datetime(min_snapshot_year, 1, 1).date()` is passed in as the day number
      `min_date` of January 1 of that year (the code only compares and adds days).
    * Python floats are modelled as exact rationals (Rat).
    * Python truthiness on optional numbers is explicit: `none` and `some 0`
      are falsy, everything else truthy.
    * Fallible functions return Option / Except.
-/
import Mathlib

namespace TrapValue

/-! ## Price points and the outcome calculator (snapshot_generator.py) -/

/-- A row of the price series: `{"date": ..., "adj_close": ...}`. Volume is never
read by the functions under verification and is omitted. -/
structure PricePoint where
  date : Int
  adj_close : Rat
deriving DecidableEq

instance : Inhabited PricePoint := ⟨⟨0, 0⟩⟩

/-- Python truthiness of an optional float: `None` and `0.0` are falsy. -/
def truthyOpt : Option Rat → Bool
  | none => false
  | some x => x != 0

/-- `get_price` inside `compute_outcome`: the first price in the list whose date
is on or after the target date (the list is traversed in order). -/
def get_price (prices : List PricePoint) (target : Int) : Option Rat :=
  (prices.find? fun p => target ≤ p.date).map PricePoint.adj_close

/-- The dict returned by `compute_outcome` on success. -/
structure Outcome where
  price_at_snapshot : Rat
  price_at_6mo : Option Rat
  price_at_12mo : Option Rat
  price_at_24mo : Rat
  return_6mo : Option Rat
  return_12mo : Option Rat
  return_24mo : Rat
  outcome_label : String
  difficulty : String
deriving DecidableEq

/-- `classify_outcome(return_24mo)` from snapshot_generator.py. -/
def classify_outcome (return_24mo : Rat) : String :=
  if (0.30 : Rat) ≤ return_24mo then "value"
  else if return_24mo ≤ (-0.20 : Rat) then "trap"
  else "neutral"

/-- `classify_difficulty(return_24mo)` from snapshot_generator.py. -/
def classify_difficulty (return_24mo : Rat) : String :=
  let abs_return := |return_24mo|
  if (0.50 : Rat) ≤ abs_return then "easy"
  else if abs_return ≤ (0.10 : Rat) then "hard"
  else "medium"

/-- Python `(tp / t0 - 1) if tp else None` used for the optional 6/12-month
returns: the 0.0 price is falsy and yields `None`. -/
def optionalReturn (tp : Option Rat) (t0 : Rat) : Option Rat :=
  match tp with
  | some p => if p = 0 then none else some (p / t0 - 1)
  | none => none

/-- `compute_outcome(prices, snapshot_date, forward_months)`.
The guard `if not t0_price or not t24_price: return None` uses Python
truthiness, so a found price of `0.0` is treated like a missing one. -/
def compute_outcome (prices : List PricePoint) (snapshot_date : Int)
    (forward_months : Int) : Option Outcome :=
  let t0 := get_price prices snapshot_date
  let t6 := get_price prices (snapshot_date + 182)
  let t12 := get_price prices (snapshot_date + 365)
  let t24 := get_price prices (snapshot_date + forward_months * 30)
  match t0, t24 with
  | some t0_price, some t24_price =>
    if t0_price = 0 ∨ t24_price = 0 then none
    else
      let return_24mo := t24_price / t0_price - 1
      some {
        price_at_snapshot := t0_price
        price_at_6mo := t6
        price_at_12mo := t12
        price_at_24mo := t24_price
        return_6mo := optionalReturn t6 t0_price
        return_12mo := optionalReturn t12 t0_price
        return_24mo := return_24mo
        outcome_label := classify_outcome return_24mo
        difficulty := classify_difficulty return_24mo }
  | _, _ => none

/-! ## The snapshot window generator (snapshot_generator.py) -/

/-- One emitted snapshot record: `{"stock_id": ..., "snapshot_date": current, **outcome}`. -/
structure SnapshotRec where
  stock_id : Int
  snapshot_date : Int
  outcome : Outcome
deriving DecidableEq

/-- `sorted(prices, key=lambda p: p["date"])` — Python sorted is a stable
ascending sort. -/
def sortPrices (prices : List PricePoint) : List PricePoint :=
  List.insertionSort (fun a b => a.date ≤ b.date) prices

/-- The `while current <= latest` loop of `generate_snapshots`, stepping by 90
days. `fuel` bounds the recursion; `generate_snapshots` supplies enough fuel
that the loop always terminates by its own `current <= latest` condition. -/
def snapLoop (stock_id : Int) (prices : List PricePoint) (forward_months latest : Int) :
    Nat → Int → List SnapshotRec
  | 0, _ => []
  | fuel + 1, current =>
    if current ≤ latest then
      let rest := snapLoop stock_id prices forward_months latest fuel (current + 90)
      match compute_outcome prices current forward_months with
      | some outcome => { stock_id := stock_id, snapshot_date := current, outcome := outcome } :: rest
      | none => rest
    else []

/-- `generate_snapshots(stock_id, prices, min_history_years, forward_months,
min_snapshot_year)`; `min_date` is the day number of January 1 of
`min_snapshot_year`. -/
def generate_snapshots (stock_id : Int) (prices0 : List PricePoint)
    (min_history_years forward_months min_date : Int) : List SnapshotRec :=
  if prices0.isEmpty then []
  else
    let prices := sortPrices prices0
    let first_date := prices.headI.date
    let last_date := prices.getLastI.date
    let earliest := first_date + min_history_years * 365
    let latest := last_date - forward_months * 30
    let earliest := if earliest < min_date then min_date else earliest
    if latest ≤ earliest then []
    else snapLoop stock_id prices forward_months latest (latest + 1 - earliest).toNat earliest

/-! ## The point-in-time financial extractor (extractor.py) -/

/-- A pandas Series of one statement column, restricted to what the code reads:
label-indexed numeric entries. Only entries for which `pd.notna` holds are
listed, so `k in series.index and pd.notna(series[k])` is plain membership. -/
abbrev Series := List (String × Rat)

/-- The helper `get(series, *keys)` of `_extract_year`: the first key present
(and non-NaN) in the series wins; `None` otherwise. -/
def seriesGet (series : Option Series) (keys : List String) : Option Rat :=
  match series with
  | none => none
  | some s => keys.findSome? fun k => (s.find? fun kv => kv.1 = k).map Prod.snd

/-- `self.MILLION = 1_000_000`. -/
def MILLION : Rat := 1000000

/-- Python `x / self.MILLION if x else None` (truthiness: `0.0` yields `None`). -/
def scaleIfTruthy (x : Option Rat) : Option Rat :=
  match x with
  | some v => if v = 0 then none else some (v / MILLION)
  | none => none

/-- The dict built by `_extract_year`. `fiscal_year` is `year_end.year`
(computed by the caller-supplied calendar function), `report_date` is
`year_end + 90` days. -/
structure FinRecord where
  fiscal_year : Int
  report_date : Int
  revenue : Rat
  gross_profit : Option Rat
  operating_income : Option Rat
  ebitda : Option Rat
  net_income : Option Rat
  gross_margin : Option Rat
  operating_margin : Option Rat
  net_margin : Option Rat
  total_assets : Option Rat
  total_debt : Option Rat
  cash_and_equivalents : Option Rat
  total_equity : Option Rat
  shares_outstanding : Option Rat
  operating_cash_flow : Option Rat
  capital_expenditures : Option Rat
  free_cash_flow : Option Rat
deriving DecidableEq

/-- `YFinanceExtractor._extract_year(year_end, income, balance, cashflow)`.
`year` abstracts the calendar projection `date.year` of Python, which the
code uses only as the sort key / `fiscal_year` field. All `if x else None`
conditions are Python truthiness (0.0 falsy). -/
def extract_year (year : Int → Int) (year_end : Int)
    (income balance cashflow : Option Series) : Option FinRecord :=
  let get := seriesGet
  let revenueOpt := get income ["Total Revenue", "Revenue"]
  match revenueOpt with
  | none => none
  | some revenue =>
    if revenue = 0 then none  -- `if not revenue: return None`
    else
      let gross_profit := get income ["Gross Profit"]
      let operating_income := get income ["Operating Income", "EBIT"]
      let ebitda := get income ["EBITDA", "Normalized EBITDA"]
      let net_income := get income ["Net Income", "Net Income Common Stockholders"]
      let total_assets := get balance ["Total Assets"]
      let total_debt := get balance ["Total Debt", "Long Term Debt"]
      let cash := get balance ["Cash And Cash Equivalents", "Cash"]
      let total_equity := get balance ["Total Equity Gross Minority Interest", "Stockholders Equity"]
      let shares := get balance ["Ordinary Shares Number", "Share Issued"]
      let op_cf := get cashflow ["Operating Cash Flow"]
      let capex := get cashflow ["Capital Expenditure"]
      -- `fcf = (op_cf - abs(capex)) if op_cf and capex else None`
      let fcf : Option Rat :=
        match op_cf, capex with
        | some o, some c => if o = 0 ∨ c = 0 then none else some (o - |c|)
        | _, _ => none
      some {
        fiscal_year := year year_end
        report_date := year_end + 90
        revenue := revenue / MILLION
        gross_profit := scaleIfTruthy gross_profit
        operating_income := scaleIfTruthy operating_income
        ebitda := scaleIfTruthy ebitda
        net_income := scaleIfTruthy net_income
        gross_margin := (match gross_profit with
          | some g => if g = 0 then none else some (g / revenue)
          | none => none)
        operating_margin := (match operating_income with
          | some o => if o = 0 then none else some (o / revenue)
          | none => none)
        net_margin := (match net_income with
          | some n => if n = 0 then none else some (n / revenue)
          | none => none)
        total_assets := scaleIfTruthy total_assets
        total_debt := scaleIfTruthy total_debt
        cash_and_equivalents := scaleIfTruthy cash
        total_equity := scaleIfTruthy total_equity
        shares_outstanding := scaleIfTruthy shares
        operating_cash_flow := scaleIfTruthy op_cf
        capital_expenditures := (match capex with
          | some c => if c = 0 then none else some (|c| / MILLION)
          | none => none)
        free_cash_flow := scaleIfTruthy fcf }

/-- `balance[col] if col in balance.columns else None`: look a period-end date
up among a statement's columns. -/
def colLookup (stmt : List (Int × Series)) (col : Int) : Option Series :=
  (stmt.find? fun c => c.1 = col).map Prod.snd

/-- `YFinanceExtractor.fetch_financials(symbol, before_date)`, applied to the
statement tables already fetched: `income` is the income-statement columns in
order (period-end date × series), `balance` and `cashflow` are looked up per
column. A period is skipped when `report_date = year_end + 90 ≥ before_date`,
then records are sorted by fiscal year and the last 5 kept. -/
def fetch_financials (year : Int → Int) (income balance cashflow : List (Int × Series))
    (before_date : Int) : List FinRecord :=
  if income.isEmpty then []
  else
    let records := income.filterMap fun col =>
      let year_end := col.1
      let report_date := year_end + 90
      if before_date ≤ report_date then none  -- `if report_date >= before_date: continue`
      else extract_year year year_end (some col.2) (colLookup balance col.1) (colLookup cashflow col.1)
    let sorted := List.insertionSort (fun a b => a.fiscal_year ≤ b.fiscal_year) records
    sorted.drop (sorted.length - 5)

/-! ## The gameplay API (game.py) over the SQLite tables (database.py) -/

/-- A row of the `stocks` table (columns read by game.py). -/
structure StockRow where
  id : Int
  ticker : String
  company_name : String
  fake_name : String
  sector : Option String
  industry : Option String
  is_active : Bool
deriving DecidableEq

/-- A row of the `snapshots` table (columns read or written by game.py). -/
structure SnapRow where
  id : Int
  stock_id : Int
  snapshot_date : Int
  price_at_snapshot : Rat
  price_at_24mo : Rat
  return_24mo : Rat
  outcome_label : String
  times_played : Int
  correct_guesses : Int
deriving DecidableEq

/-- A row of the `price_history` table. -/
structure PriceRow where
  stock_id : Int
  date : Int
  adj_close : Rat
deriving DecidableEq

/-- A row of the `financials` table (columns read by `get_financials_for_snapshot`). -/
structure FinRow where
  stock_id : Int
  fiscal_year : Int
  report_date : Int
  revenue : Option Rat
  gross_margin : Option Rat
  operating_income : Option Rat
  ebitda : Option Rat
  net_income : Option Rat
  free_cash_flow : Option Rat
  total_debt : Option Rat
  cash_and_equivalents : Option Rat
deriving DecidableEq

/-- The database as seen by game.py. -/
structure GameDB where
  stocks : List StockRow
  snapshots : List SnapRow
  price_history : List PriceRow
  financials : List FinRow
deriving DecidableEq

/-- The `FinancialYear` response model (schemas.py). -/
structure FinancialYear where
  fiscal_year : Int
  revenue : Option Rat
  gross_margin : Option Rat
  operating_income : Option Rat
  ebitda : Option Rat
  net_income : Option Rat
  free_cash_flow : Option Rat
  total_debt : Option Rat
  cash_and_equivalents : Option Rat
deriving DecidableEq

/-- Projection of a `financials` row to the response model. -/
def toFinancialYear (f : FinRow) : FinancialYear :=
  { fiscal_year := f.fiscal_year
    revenue := f.revenue
    gross_margin := f.gross_margin
    operating_income := f.operating_income
    ebitda := f.ebitda
    net_income := f.net_income
    free_cash_flow := f.free_cash_flow
    total_debt := f.total_debt
    cash_and_equivalents := f.cash_and_equivalents }

/-- `get_financials_for_snapshot(db, stock_id, snapshot_date)`:
`WHERE stock_id = ? AND report_date <= ? ORDER BY fiscal_year DESC LIMIT 5`,
then reversed into chronological order. -/
def get_financials_for_snapshot (db : GameDB) (stock_id snapshot_date : Int) :
    List FinancialYear :=
  let rows :=
    (List.insertionSort (fun a b => b.fiscal_year ≤ a.fiscal_year)
      (db.financials.filter fun f =>
        decide (f.stock_id = stock_id ∧ f.report_date ≤ snapshot_date))).take 5
  (rows.reverse).map toFinancialYear

/-- The `RevealResponse` model (schemas.py); the price series is (date, price). -/
structure RevealResp where
  ticker : String
  company_name : String
  snapshot_date : Int
  price_at_snapshot : Rat
  price_at_24mo : Rat
  return_24mo : Rat
  outcome_label : String
  player_choice : String
  is_correct : Bool
  price_series : List (Int × Rat)
deriving DecidableEq

/-- Gameplay HTTP failures: 400 "Choice must be value or trap", 404 "Snapshot
not found". -/
inductive ApiError where
  | invalidChoice
  | notFound
deriving DecidableEq

/-- `SELECT ... FROM snapshots s JOIN stocks st ON s.stock_id = st.id WHERE
s.id = ?` with `fetchone()`: the first snapshot row with that id that has a
matching stock. -/
def joinSnapshotStock (db : GameDB) (snapshot_id : Int) : Option (SnapRow × StockRow) :=
  (db.snapshots.filterMap fun s =>
    if s.id = snapshot_id then
      (db.stocks.find? fun st => st.id = s.stock_id).map fun st => (s, st)
    else none).head?

/-- The price-series query of `reveal_outcome`: `date >= snapshot_date AND
date <= date(snapshot_date, '+24 months') ORDER BY date`. The calendar
function `plus24mo` abstracts SQLite's `'+24 months'` date arithmetic. -/
def priceSeriesQuery (plus24mo : Int → Int) (db : GameDB) (stock_id snapshot_date : Int) :
    List PriceRow :=
  List.insertionSort (fun a b => a.date ≤ b.date)
    (db.price_history.filter fun p =>
      decide (p.stock_id = stock_id ∧ snapshot_date ≤ p.date ∧ p.date ≤ plus24mo snapshot_date))

/-- `reveal_outcome(snapshot_id, player_choice)` from game.py: the result of
the request together with the database it leaves behind. -/
def reveal_outcome (plus24mo : Int → Int) (db : GameDB) (snapshot_id : Int)
    (player_choice : String) : Except ApiError RevealResp × GameDB :=
  if player_choice ≠ "value" ∧ player_choice ≠ "trap" then
    (Except.error ApiError.invalidChoice, db)
  else
    match joinSnapshotStock db snapshot_id with
    | none => (Except.error ApiError.notFound, db)
    | some (s, st) =>
      let price_rows := priceSeriesQuery plus24mo db s.stock_id s.snapshot_date
      let is_correct : Bool :=
        (player_choice == "value" && s.outcome_label == "value") ||
        (player_choice == "trap" && s.outcome_label == "trap")
      let db' := { db with snapshots := db.snapshots.map fun r =>
        if r.id = snapshot_id then
          { r with
            times_played := r.times_played + 1
            correct_guesses := r.correct_guesses + (if is_correct then 1 else 0) }
        else r }
      (Except.ok {
        ticker := st.ticker
        company_name := st.company_name
        snapshot_date := s.snapshot_date
        price_at_snapshot := s.price_at_snapshot
        price_at_24mo := s.price_at_24mo
        return_24mo := s.return_24mo
        outcome_label := s.outcome_label
        player_choice := player_choice
        is_correct := is_correct
        price_series := price_rows.map fun p => (p.date, p.adj_close) }, db')

/-! ## The ingestion orchestrator (admin.py)

The aiosqlite connection is modelled as an append log split into rows already
committed and rows pending in the open transaction; `execute` appends to the
transaction and `commit` moves the transaction into the committed log. Numeric
stock ids are abstracted to the (upper-cased) ticker, which is the key the
code resolves the id from. `INSERT OR REPLACE` is modelled as an append: the
claims under verification only concern which tickers have rows on which side
of a commit boundary, not replacement of equal-keyed rows. -/

/-- A row written by `seed_single_ticker`, tagged with its table. -/
inductive Row where
  | stock (ticker company_name fake_name : String) (sector industry : Option String) (tier : String)
  | price (ticker : String) (date : Int) (adj_close : Rat)
  | fin (ticker : String) (fiscal_year : Int)
  | snap (ticker : String) (snapshot_date : Int)
deriving DecidableEq

/-- Does this row belong to the given ticker (any table)? -/
def Row.ownedBy (r : Row) (t : String) : Bool :=
  match r with
  | .stock tk _ _ _ _ _ => tk == t
  | .price tk _ _ => tk == t
  | .fin tk _ => tk == t
  | .snap tk _ => tk == t

/-- Is this a `stocks` row for the given ticker? -/
def Row.isStockFor (r : Row) (t : String) : Bool :=
  match r with
  | .stock tk _ _ _ _ _ => tk == t
  | _ => false

/-- Is this a `price_history` row for the given ticker and date? -/
def Row.isPriceFor (r : Row) (t : String) (d : Int) : Bool :=
  match r with
  | .price tk date _ => tk == t && date == d
  | _ => false

/-- Is this a `snapshots` row for the given ticker and date? -/
def Row.isSnapFor (r : Row) (t : String) (d : Int) : Bool :=
  match r with
  | .snap tk date => tk == t && date == d
  | _ => false

/-- The connection state: committed rows and the open transaction. -/
structure SeedDB where
  committed : List Row
  pending : List Row
deriving DecidableEq

/-- `db.execute(INSERT ...)`: the row joins the open transaction. -/
def SeedDB.exec (db : SeedDB) (r : Row) : SeedDB :=
  { db with pending := db.pending ++ [r] }

/-- What a `SELECT` on this connection sees: committed rows plus its own
uncommitted writes. -/
def SeedDB.visible (db : SeedDB) : List Row :=
  db.committed ++ db.pending

/-- `db.commit()`. -/
def SeedDB.commit (db : SeedDB) : SeedDB :=
  { committed := db.committed ++ db.pending, pending := [] }

/-- `ticker.upper()`: uppercase every character. (Stated over the string's
character data so that concrete runs evaluate inside the kernel.) -/
def pyUpper (s : String) : String := ⟨s.data.map Char.toUpper⟩

/-- Day number (days since 1970-01-01) of `datetime(2023, 1, 1).date()`: the
`min_snapshot_year=2023` default that `seed_single_ticker`'s call of
`generate_snapshots` uses. -/
def jan1_2023 : Int := 19358

/-- What the market data source returns for one ticker.
`company_name` is `info.get("longName") or info.get("shortName", "Unknown")`
(so `""` or `"Unknown"` means the company was not resolved); `financials` is
the `fetch_financials(ticker, now)` result; `raises = true` models the fetch
throwing (network failure) before anything is written. -/
structure TickerData where
  company_name : String
  sector : Option String
  industry : Option String
  market_cap_tier : String
  prices : List PricePoint
  financials : List FinRecord
  raises : Bool

/-- The dict returned by `seed_single_ticker` (the fields the caller reads). -/
structure SeedCallResult where
  success : Bool
  fake_name : Option String
  error : Option String
deriving DecidableEq

/-- `seed_single_ticker(db, extractor, ticker, used_names, force)`.
`nameGen` abstracts `generate_fake_name(sector, used_names)`. -/
def seed_single_ticker (nameGen : Option String → List String → String) (db : SeedDB)
    (data : TickerData) (ticker : String) (used_names : List String) (force : Bool) :
    SeedDB × SeedCallResult :=
  let tickerU := pyUpper ticker
  -- `SELECT id FROM stocks WHERE ticker = ?`
  if (db.visible.any fun r => r.isStockFor tickerU) ∧ ¬ force then
    (db, { success := true, fake_name := none, error := none })
  else if data.company_name = "" ∨ data.company_name = "Unknown" then
    (db, { success := false, fake_name := none, error := some "Company not found" })
  else
    let fake_name := nameGen data.sector used_names
    -- `INSERT INTO stocks ... ON CONFLICT(ticker) DO UPDATE ...`
    let db := db.exec (Row.stock tickerU data.company_name fake_name data.sector
      data.industry data.market_cap_tier)
    if data.prices.isEmpty then
      (db, { success := false, fake_name := none, error := some "No price history found" })
    else
      -- `INSERT OR IGNORE INTO price_history ...`
      let db := data.prices.foldl (fun d p =>
        if d.visible.any fun r => r.isPriceFor tickerU p.date then d
        else d.exec (Row.price tickerU p.date p.adj_close)) db
      -- `INSERT OR REPLACE INTO financials ...`
      let db := data.financials.foldl (fun d f => d.exec (Row.fin tickerU f.fiscal_year)) db
      -- `generate_snapshots(stock_id, prices)` with the defaults (5, 24, 2023);
      -- the numeric stock id plays no role here.
      let snaps := generate_snapshots 0 data.prices 5 24 jan1_2023
      -- `INSERT OR IGNORE INTO snapshots ...`
      let db := snaps.foldl (fun d s =>
        if d.visible.any fun r => r.isSnapFor tickerU s.snapshot_date then d
        else d.exec (Row.snap tickerU s.snapshot_date)) db
      (db, { success := true, fake_name := some fake_name, error := none })

/-- `status` field of the `_seed_progress` dict. -/
inductive JobStatus where
  | idle
  | running
  | completed
  | error
deriving DecidableEq

/-- The `_seed_progress` dict (started_at omitted: wall-clock). -/
structure Progress where
  status : JobStatus
  total : Nat
  processed : Nat
  successful : Nat
  failed : Nat
  current_ticker : Option String
  errors : List (String × String)
deriving DecidableEq

/-- The reset value of `_seed_progress` at job start. -/
def initProgress (total : Nat) : Progress :=
  { status := JobStatus.running
    total := total
    processed := 0
    successful := 0
    failed := 0
    current_ticker := none
    errors := [] }

/-- `SELECT fake_name FROM stocks` at job start. -/
def usedNamesOf (db : SeedDB) : List String :=
  db.visible.filterMap fun r =>
    match r with
    | Row.stock _ _ fn _ _ _ => some fn
    | _ => none

/-- The `for i, ticker in enumerate(tickers)` loop body of
`seed_tickers_with_rate_limit`: per ticker, try `seed_single_ticker` (an
exception is recorded as a failure and the loop continues), bump counters,
and commit the transaction every `batch_size` tickers. The rate-limit sleep
has no observable effect on this state. -/
def seedLoop (nameGen : Option String → List String → String) (src : String → TickerData)
    (force : Bool) (batch_size : Nat) :
    List String → Nat → SeedDB → Progress → List String → SeedDB × Progress × List String
  | [], _, db, prog, used => (db, prog, used)
  | ticker :: rest, i, db, prog, used =>
    let prog := { prog with current_ticker := some ticker }
    let data := src ticker
    let next :=
      if data.raises then
        (db, { prog with
          failed := prog.failed + 1
          errors := prog.errors ++ [(ticker, "exception")] }, used)
      else
        let r := seed_single_ticker nameGen db data ticker used force
        if r.2.success then
          (r.1, { prog with successful := prog.successful + 1 },
            used ++ [r.2.fake_name.getD ""])
        else
          (r.1, { prog with
            failed := prog.failed + 1
            errors := prog.errors ++ (match r.2.error with
              | some e => [(ticker, e)]
              | none => []) }, used)
    let db := next.1
    let prog := { next.2.1 with processed := next.2.1.processed + 1 }
    let used := next.2.2
    let db := if (i + 1) % batch_size = 0 then db.commit else db
    seedLoop nameGen src force batch_size rest (i + 1) db prog used

/-- `seed_tickers_with_rate_limit(tickers, force_refresh, delay_seconds,
batch_size)`: reset progress, run the loop, final commit, mark completed. -/
def seed_tickers_with_rate_limit (nameGen : Option String → List String → String)
    (src : String → TickerData) (tickers : List String) (force : Bool)
    (batch_size : Nat) (db0 : SeedDB) : SeedDB × Progress :=
  let prog0 := initProgress tickers.length
  let used := usedNamesOf db0
  let res := seedLoop nameGen src force batch_size tickers 0 db0 prog0 used
  let db := res.1.commit
  (db, { res.2.1 with status := JobStatus.completed, current_ticker := none })

/-! ## Theorems -/

/-- C4: for every real return r, classify_outcome r is "value" if r ≥ 0.30,
"trap" if r ≤ −0.20, and "neutral" otherwise; the boundary values 0.30 and
−0.20 are classified "value" and "trap" respectively, never "neutral". -/
theorem classify_outcome_thresholds (r : Rat) :
    ((0.30 : Rat) ≤ r → classify_outcome r = "value") ∧
    (r ≤ (-0.20 : Rat) → classify_outcome r = "trap") ∧
    ((-0.20 : Rat) < r → r < (0.30 : Rat) → classify_outcome r = "neutral") := by
  refine ⟨fun h => ?_, fun h => ?_, fun h1 h2 => ?_⟩
  · rw [classify_outcome, if_pos h]
  · rw [classify_outcome, if_neg (by norm_num at h ⊢; linarith), if_pos h]
  · rw [classify_outcome, if_neg (not_le.mpr h2), if_neg (not_le.mpr h1)]

/-- Witness for C4 at the boundary inputs 0.30 and −0.20. -/
theorem classify_outcome_thresholds_witness :
    classify_outcome (0.30 : Rat) = "value" ∧ classify_outcome (-0.20 : Rat) = "trap" :=
  ⟨(classify_outcome_thresholds 0.30).1 le_rfl,
   (classify_outcome_thresholds (-0.20)).2.1 le_rfl⟩

/-- C2 counterexample: in the series [(day 0, 100), (day 720, 0)] a price
exists on/after the snapshot date (day 0) and on/after day 0 + 24×30 = 720,
yet compute_outcome returns none, because the 24-month price found is 0 and
Python truthiness treats it as missing. -/
theorem compute_outcome_zero_counterexample :
    compute_outcome [⟨0, 100⟩, ⟨720, 0⟩] 0 24 = none ∧
    (get_price [⟨0, 100⟩, ⟨720, 0⟩] 0).isSome = true ∧
    (get_price [⟨0, 100⟩, ⟨720, 0⟩] (0 + 24 * 30)).isSome = true := by
  decide

/-- C2 amended: compute_outcome returns none if and only if the first price on
or after the snapshot date, or the first price on or after
snapshotDate + forwardMonths×30 days, is missing or equal to 0 (a zero price
counts as absent); otherwise the result is non-none, the 6- and 12-month
prices remaining optional. -/
theorem compute_outcome_none_iff (prices : List PricePoint)
    (snapshot_date forward_months : Int) :
    compute_outcome prices snapshot_date forward_months = none ↔
      truthyOpt (get_price prices snapshot_date) = false ∨
      truthyOpt (get_price prices (snapshot_date + forward_months * 30)) = false := by
  unfold compute_outcome
  cases h0 : get_price prices snapshot_date with
  | none => simp [truthyOpt]
  | some t0 =>
    cases h24 : get_price prices (snapshot_date + forward_months * 30) with
    | none => simp [truthyOpt]
    | some t24 =>
      by_cases hz : t0 = 0 ∨ t24 = 0
      · simp [truthyOpt, if_pos hz]
        rcases hz with h | h <;> simp [h]
      · push_neg at hz
        simp [truthyOpt, if_neg, hz.1, hz.2]

/-- C9: compute_outcome treats a zero adjusted close as absent: a zero first
price at the snapshot date or at the mandatory forward date forces none, and
every non-none result carries nonzero snapshot and 24-month prices (so the
return divisions never divide by zero). -/
theorem compute_outcome_zero_guard (prices : List PricePoint)
    (snapshot_date forward_months : Int) :
    (get_price prices snapshot_date = some 0 ∨
      get_price prices (snapshot_date + forward_months * 30) = some 0 →
      compute_outcome prices snapshot_date forward_months = none) ∧
    (∀ o, compute_outcome prices snapshot_date forward_months = some o →
      o.price_at_snapshot ≠ 0 ∧ o.price_at_24mo ≠ 0 ∧
      get_price prices snapshot_date = some o.price_at_snapshot ∧
      o.return_24mo = o.price_at_24mo / o.price_at_snapshot - 1) := by
  constructor
  · intro hz
    unfold compute_outcome
    cases h0 : get_price prices snapshot_date with
    | none => rfl
    | some t0 =>
      cases h24 : get_price prices (snapshot_date + forward_months * 30) with
      | none => rfl
      | some t24 =>
        rw [h0] at hz
        rw [h24] at hz
        have : t0 = 0 ∨ t24 = 0 := by
          rcases hz with h | h
          · exact Or.inl (Option.some_injective _ h.symm).symm
          · exact Or.inr (Option.some_injective _ h.symm).symm
        simp [if_pos this]
  · intro o ho
    unfold compute_outcome at ho
    cases h0 : get_price prices snapshot_date with
    | none => rw [h0] at ho; cases ho
    | some t0 =>
      cases h24 : get_price prices (snapshot_date + forward_months * 30) with
      | none => rw [h0, h24] at ho; cases ho
      | some t24 =>
        rw [h0, h24] at ho
        dsimp only at ho
        by_cases hz : t0 = 0 ∨ t24 = 0
        · rw [if_pos hz] at ho; cases ho
        · rw [if_neg hz] at ho
          push_neg at hz
          cases ho
          exact ⟨hz.1, hz.2, rfl, rfl⟩

/-- Witness for C9: a lone zero price forces none, and a concrete non-none
outcome has nonzero prices. -/
theorem compute_outcome_zero_guard_witness :
    compute_outcome [⟨0, 0⟩] 0 24 = none ∧
    ((1 : Rat) ≠ 0 ∧ (2 : Rat) ≠ 0 ∧
      get_price [⟨0, 1⟩, ⟨720, 2⟩] 0 = some 1 ∧
      (1 : Rat) = (2 : Rat) / 1 - 1) := by
  constructor
  · exact (compute_outcome_zero_guard [⟨0, 0⟩] 0 24).1 (Or.inl rfl)
  · have h : compute_outcome [⟨0, 1⟩, ⟨720, 2⟩] 0 24 =
        some ⟨1, some 2, some 2, 2, some 1, some 1, 1, "value", "easy"⟩ := by
      norm_num [compute_outcome, get_price, optionalReturn, classify_outcome,
        classify_difficulty, List.find?]
    exact (compute_outcome_zero_guard [⟨0, 1⟩, ⟨720, 2⟩] 0 24).2 _ h

/-- Characterization of a successful `extract_year`: the revenue lookup
succeeded with a truthy value, and the record is exactly the built dict. -/
theorem extract_year_eq (year : Int → Int) (year_end : Int)
    (income balance cashflow : Option Series) (r : FinRecord)
    (h : extract_year year year_end income balance cashflow = some r) :
    ∃ revenue, seriesGet income ["Total Revenue", "Revenue"] = some revenue ∧
      revenue ≠ 0 ∧
      r = { fiscal_year := year year_end
            report_date := year_end + 90
            revenue := revenue / MILLION
            gross_profit := scaleIfTruthy (seriesGet income ["Gross Profit"])
            operating_income := scaleIfTruthy (seriesGet income ["Operating Income", "EBIT"])
            ebitda := scaleIfTruthy (seriesGet income ["EBITDA", "Normalized EBITDA"])
            net_income := scaleIfTruthy (seriesGet income ["Net Income", "Net Income Common Stockholders"])
            gross_margin := (match seriesGet income ["Gross Profit"] with
              | some g => if g = 0 then none else some (g / revenue)
              | none => none)
            operating_margin := (match seriesGet income ["Operating Income", "EBIT"] with
              | some o => if o = 0 then none else some (o / revenue)
              | none => none)
            net_margin := (match seriesGet income ["Net Income", "Net Income Common Stockholders"] with
              | some n => if n = 0 then none else some (n / revenue)
              | none => none)
            total_assets := scaleIfTruthy (seriesGet balance ["Total Assets"])
            total_debt := scaleIfTruthy (seriesGet balance ["Total Debt", "Long Term Debt"])
            cash_and_equivalents := scaleIfTruthy (seriesGet balance ["Cash And Cash Equivalents", "Cash"])
            total_equity := scaleIfTruthy (seriesGet balance ["Total Equity Gross Minority Interest", "Stockholders Equity"])
            shares_outstanding := scaleIfTruthy (seriesGet balance ["Ordinary Shares Number", "Share Issued"])
            operating_cash_flow := scaleIfTruthy (seriesGet cashflow ["Operating Cash Flow"])
            capital_expenditures := (match seriesGet cashflow ["Capital Expenditure"] with
              | some c => if c = 0 then none else some (|c| / MILLION)
              | none => none)
            free_cash_flow := scaleIfTruthy (match seriesGet cashflow ["Operating Cash Flow"],
                seriesGet cashflow ["Capital Expenditure"] with
              | some o, some c => if o = 0 ∨ c = 0 then none else some (o - |c|)
              | _, _ => none) } := by
  unfold extract_year at h
  dsimp only at h
  cases hrev : seriesGet income ["Total Revenue", "Revenue"] with
  | none => rw [hrev] at h; cases h
  | some revenue =>
    rw [hrev] at h
    dsimp only at h
    by_cases hz : revenue = 0
    · rw [if_pos hz] at h; cases h
    · rw [if_neg hz] at h
      exact ⟨revenue, rfl, hz, (Option.some.inj h).symm⟩

/-- C1: every FinancialYear returned by the point-in-time extractor has
reportDate = periodEnd + 90 days strictly before the cutoff asOfDate, for any
statement tables and cutoff. -/
theorem fetch_financials_point_in_time (year : Int → Int)
    (income balance cashflow : List (Int × Series)) (before_date : Int) :
    ∀ r ∈ fetch_financials year income balance cashflow before_date,
      r.report_date < before_date := by
  intro r hr
  unfold fetch_financials at hr
  by_cases he : income.isEmpty
  · rw [if_pos he] at hr
    cases hr
  · rw [if_neg he] at hr
    dsimp only at hr
    have h1 := List.mem_of_mem_drop hr
    have h2 := (List.perm_insertionSort
      (fun a b : FinRecord => a.fiscal_year ≤ b.fiscal_year) _).subset h1
    rw [List.mem_filterMap] at h2
    obtain ⟨col, _, hsome⟩ := h2
    by_cases hb : before_date ≤ col.1 + 90
    · rw [if_pos hb] at hsome; cases hsome
    · rw [if_neg hb] at hsome
      obtain ⟨rev, _, _, hr_eq⟩ := extract_year_eq _ _ _ _ _ _ hsome
      rw [hr_eq]
      exact lt_of_not_le hb

/-- A concrete extracted year (period end day 0, revenue 5) used to witness
the point-in-time guard. -/
def finRecEx : FinRecord :=
  { fiscal_year := 0
    report_date := 90
    revenue := 5 / MILLION
    gross_profit := none
    operating_income := none
    ebitda := none
    net_income := none
    gross_margin := none
    operating_margin := none
    net_margin := none
    total_assets := none
    total_debt := none
    cash_and_equivalents := none
    total_equity := none
    shares_outstanding := none
    operating_cash_flow := none
    capital_expenditures := none
    free_cash_flow := none }

/-- Witness for C1 on a one-period statement set with cutoff day 1000. -/
theorem fetch_financials_point_in_time_witness : finRecEx.report_date < 1000 := by
  have hmem : finRecEx ∈ fetch_financials (fun z => z)
      [(0, [("Total Revenue", (5 : Rat))])] [] [] 1000 := by
    norm_num [fetch_financials, extract_year, seriesGet, colLookup, scaleIfTruthy,
      finRecEx, List.insertionSort, List.orderedInsert, List.find?, List.findSome?]
    repeat' apply And.intro
    all_goals rfl
  exact fetch_financials_point_in_time (fun z => z)
    [(0, [("Total Revenue", (5 : Rat))])] [] [] 1000 finRecEx hmem

/-- Reference definition for the amended margin rule: line / revenue exactly
when the line is present and nonzero (Python truthiness), null otherwise. -/
def marginSpec (line : Option Rat) (revenue : Rat) : Option Rat :=
  match line with
  | some v => if v = 0 then none else some (v / revenue)
  | none => none

/-- Reference definition for the amended free-cash-flow rule:
(opCF − |capex|) / MILLION exactly when operating cash flow and capital
expenditures are present and nonzero and their difference is nonzero (each
step is guarded by Python truthiness), null otherwise. -/
def fcfSpec (op_cf capex : Option Rat) : Option Rat :=
  match op_cf, capex with
  | some o, some c =>
    if o = 0 ∨ c = 0 ∨ o - |c| = 0 then none else some ((o - |c|) / MILLION)
  | _, _ => none

/-- C8 amended: in every extracted year, free_cash_flow follows fcfSpec
(present-and-nonzero operands with nonzero difference, else null) and each
margin follows marginSpec (present-and-nonzero line over revenue, else null),
relative to the source period's looked-up figures. -/
theorem extract_year_derived_fields (year : Int → Int) (year_end : Int)
    (income balance cashflow : Option Series) (r : FinRecord) (v : Rat)
    (h : extract_year year year_end income balance cashflow = some r)
    (hrev : seriesGet income ["Total Revenue", "Revenue"] = some v) :
    r.free_cash_flow = fcfSpec (seriesGet cashflow ["Operating Cash Flow"])
        (seriesGet cashflow ["Capital Expenditure"]) ∧
    r.gross_margin = marginSpec (seriesGet income ["Gross Profit"]) v ∧
    r.operating_margin = marginSpec (seriesGet income ["Operating Income", "EBIT"]) v ∧
    r.net_margin = marginSpec
      (seriesGet income ["Net Income", "Net Income Common Stockholders"]) v := by
  obtain ⟨rev, hrev', hz, hr_eq⟩ := extract_year_eq _ _ _ _ _ _ h
  have hv : rev = v := Option.some.inj (hrev'.symm.trans hrev)
  subst hv
  subst hr_eq
  refine ⟨?_, rfl, rfl, rfl⟩
  cases hop : seriesGet cashflow ["Operating Cash Flow"] with
  | none => simp [fcfSpec, scaleIfTruthy]
  | some o =>
    cases hcap : seriesGet cashflow ["Capital Expenditure"] with
    | none => simp [fcfSpec, scaleIfTruthy]
    | some c =>
      by_cases h1 : o = 0 ∨ c = 0
      · have hz3 : o = 0 ∨ c = 0 ∨ o - |c| = 0 :=
          h1.elim (fun hh => Or.inl hh) (fun hh => Or.inr (Or.inl hh))
        simp only [fcfSpec, if_pos h1, if_pos hz3, scaleIfTruthy]
      · by_cases h2 : o - |c| = 0
        · have hz3 : o = 0 ∨ c = 0 ∨ o - |c| = 0 := Or.inr (Or.inr h2)
          simp only [fcfSpec, if_neg h1, if_pos hz3, scaleIfTruthy, if_pos h2]
        · have hz3 : ¬ (o = 0 ∨ c = 0 ∨ o - |c| = 0) := by tauto
          simp only [fcfSpec, if_neg h1, if_neg hz3, scaleIfTruthy, if_neg h2]

/-- Income statement of the truthiness counterexample: revenue 100, gross
profit present with value 0. -/
def exIncome : Series := [("Total Revenue", (100 : Rat)), ("Gross Profit", 0)]

/-- Cash-flow statement of the truthiness counterexample: operating cash flow
5, capital expenditures present with value 0. -/
def exCashflow : Series := [("Operating Cash Flow", (5 : Rat)), ("Capital Expenditure", 0)]

/-- C8 counterexample: operating cash flow (5) and capital expenditures (0)
are both present in the source period, yet the extracted free_cash_flow is
null instead of 5 − |0| = 5; likewise gross profit is present (0) yet
gross_margin is null instead of 0/100 = 0 — `x if x else None` drops the
value 0. -/
theorem extract_year_truthiness_counterexample :
    seriesGet (some exCashflow) ["Operating Cash Flow"] = some 5 ∧
    seriesGet (some exCashflow) ["Capital Expenditure"] = some 0 ∧
    seriesGet (some exIncome) ["Gross Profit"] = some 0 ∧
    (extract_year (fun z => z) 0 (some exIncome) none (some exCashflow)).map
      FinRecord.free_cash_flow = some none ∧
    (extract_year (fun z => z) 0 (some exIncome) none (some exCashflow)).map
      FinRecord.gross_margin = some none := by
  refine ⟨rfl, rfl, rfl, rfl, rfl⟩

/-- The record extracted from the truthiness-counterexample period. -/
def extractEx : FinRecord :=
  { fiscal_year := 0
    report_date := 90
    revenue := 100 / MILLION
    gross_profit := none
    operating_income := none
    ebitda := none
    net_income := none
    gross_margin := none
    operating_margin := none
    net_margin := none
    total_assets := none
    total_debt := none
    cash_and_equivalents := none
    total_equity := none
    shares_outstanding := none
    operating_cash_flow := some (5 / MILLION)
    capital_expenditures := none
    free_cash_flow := none }

/-- Witness for the amended C8 on the concrete period. -/
theorem extract_year_derived_fields_witness :
    extractEx.free_cash_flow = fcfSpec (seriesGet (some exCashflow) ["Operating Cash Flow"])
        (seriesGet (some exCashflow) ["Capital Expenditure"]) ∧
    extractEx.gross_margin = marginSpec (seriesGet (some exIncome) ["Gross Profit"]) 100 ∧
    extractEx.operating_margin =
      marginSpec (seriesGet (some exIncome) ["Operating Income", "EBIT"]) 100 ∧
    extractEx.net_margin = marginSpec
      (seriesGet (some exIncome) ["Net Income", "Net Income Common Stockholders"]) 100 := by
  have hx : extract_year (fun z => z) 0 (some exIncome) none (some exCashflow) =
      some extractEx := rfl
  exact extract_year_derived_fields (fun z => z) 0 (some exIncome) none
    (some exCashflow) extractEx 100 hx rfl

/-- Every record the snapshot loop emits is dated in [current, latest] and on
the 90-day grid anchored at the loop entry date. -/
theorem snapLoop_mem (stock_id : Int) (prices : List PricePoint)
    (forward_months latest : Int) :
    ∀ (fuel : Nat) (current : Int),
      ∀ s ∈ snapLoop stock_id prices forward_months latest fuel current,
        current ≤ s.snapshot_date ∧ s.snapshot_date ≤ latest ∧
          (90 : Int) ∣ (s.snapshot_date - current) := by
  intro fuel
  induction fuel with
  | zero =>
    intro current s hs
    cases hs
  | succ n ih =>
    intro current s hs
    simp only [snapLoop] at hs
    by_cases hc : current ≤ latest
    · rw [if_pos hc] at hs
      cases hmatch : compute_outcome prices current forward_months with
      | none =>
        rw [hmatch] at hs
        obtain ⟨h1, h2, h3⟩ := ih (current + 90) s hs
        refine ⟨by omega, h2, by omega⟩
      | some o =>
        rw [hmatch] at hs
        dsimp only at hs
        rw [List.mem_cons] at hs
        rcases hs with hs1 | hs1
        · subst hs1
          exact ⟨le_refl _, hc, by simp⟩
        · obtain ⟨h1, h2, h3⟩ := ih (current + 90) s hs1
          refine ⟨by omega, h2, by omega⟩
    · rw [if_neg hc] at hs
      cases hs

/-- The snapshot loop emits strictly increasing dates. -/
theorem snapLoop_pairwise (stock_id : Int) (prices : List PricePoint)
    (forward_months latest : Int) :
    ∀ (fuel : Nat) (current : Int),
      List.Pairwise (fun a b : SnapshotRec => a.snapshot_date < b.snapshot_date)
        (snapLoop stock_id prices forward_months latest fuel current) := by
  intro fuel
  induction fuel with
  | zero =>
    intro current
    exact List.Pairwise.nil
  | succ n ih =>
    intro current
    simp only [snapLoop]
    by_cases hc : current ≤ latest
    · rw [if_pos hc]
      cases hmatch : compute_outcome prices current forward_months with
      | none => exact ih (current + 90)
      | some o =>
        refine List.Pairwise.cons ?_ (ih (current + 90))
        intro b hb
        have h1 := (snapLoop_mem stock_id prices forward_months latest n (current + 90) b hb).1
        show current < b.snapshot_date
        omega
    · rw [if_neg hc]
      exact List.Pairwise.nil

/-- C3 amended: the snapshot dates returned by generate_snapshots all lie on
the 90-day grid anchored at lowerBound = max(firstDate + minHistoryYears×365,
Jan 1 of minSnapshotYear), within [lowerBound, upperBound] where upperBound =
lastDate − forwardMonths×30, in strictly increasing order, and the result is
empty whenever lowerBound ≥ upperBound; consecutive returned dates need not be
exactly 90 days apart, because candidates whose outcome cannot be computed are
dropped. -/
theorem generate_snapshots_window (stock_id : Int) (prices0 : List PricePoint)
    (min_history_years forward_months min_date : Int) :
    (∀ s ∈ generate_snapshots stock_id prices0 min_history_years forward_months min_date,
      max ((sortPrices prices0).headI.date + min_history_years * 365) min_date ≤
          s.snapshot_date ∧
        s.snapshot_date ≤ (sortPrices prices0).getLastI.date - forward_months * 30 ∧
        (90 : Int) ∣ (s.snapshot_date -
          max ((sortPrices prices0).headI.date + min_history_years * 365) min_date)) ∧
    List.Pairwise (fun a b : SnapshotRec => a.snapshot_date < b.snapshot_date)
      (generate_snapshots stock_id prices0 min_history_years forward_months min_date) ∧
    ((sortPrices prices0).getLastI.date - forward_months * 30 ≤
        max ((sortPrices prices0).headI.date + min_history_years * 365) min_date →
      generate_snapshots stock_id prices0 min_history_years forward_months min_date = []) := by
  unfold generate_snapshots
  by_cases he : prices0.isEmpty
  · rw [if_pos he]
    exact ⟨fun s hs => absurd hs (List.not_mem_nil s), List.Pairwise.nil, fun _ => rfl⟩
  · rw [if_neg he]
    dsimp only
    have hmax : (if (sortPrices prices0).headI.date + min_history_years * 365 < min_date
        then min_date
        else (sortPrices prices0).headI.date + min_history_years * 365) =
        max ((sortPrices prices0).headI.date + min_history_years * 365) min_date := by
      rcases lt_or_ge ((sortPrices prices0).headI.date + min_history_years * 365) min_date with h | h
      · rw [if_pos h]
        exact (max_eq_right h.le).symm
      · rw [if_neg (not_lt.mpr h)]
        exact (max_eq_left h).symm
    rw [hmax]
    by_cases hle : (sortPrices prices0).getLastI.date - forward_months * 30 ≤
        max ((sortPrices prices0).headI.date + min_history_years * 365) min_date
    · rw [if_pos hle]
      exact ⟨fun s hs => absurd hs (List.not_mem_nil s), List.Pairwise.nil, fun _ => rfl⟩
    · rw [if_neg hle]
      refine ⟨?_, snapLoop_pairwise _ _ _ _ _ _, fun hcontra => absurd hcontra hle⟩
      intro s hs
      exact snapLoop_mem _ _ _ _ _ _ s hs

/-- C3 counterexample: with prices [(0,100), (90,0), (180,100)] and
configuration (0 history years, 0 forward months, min date 0) the returned
snapshot dates are 0 and 180 — the day-90 candidate was dropped because its
first found price is 0 — so consecutive returned dates are 180 days apart,
not exactly 90. -/
theorem generate_snapshots_gap_counterexample :
    (generate_snapshots 1 [⟨0, 100⟩, ⟨90, 0⟩, ⟨180, 100⟩] 0 0 0).map
      SnapshotRec.snapshot_date = [0, 180] ∧ (180 - 0 ≠ (90 : Int)) := by
  decide

/-- Witness for the amended C3: a concrete emitted snapshot satisfies the
window bounds, and a one-point series (empty window) yields no snapshots. -/
theorem generate_snapshots_window_witness :
    (max ((sortPrices [⟨0, 100⟩, ⟨90, 0⟩, ⟨180, 100⟩]).headI.date + 0 * 365) 179 ≤ 179 ∧
      (179 : Int) ≤ (sortPrices [⟨0, 100⟩, ⟨90, 0⟩, ⟨180, 100⟩]).getLastI.date - 0 * 30 ∧
      (90 : Int) ∣ (179 -
        max ((sortPrices [⟨0, 100⟩, ⟨90, 0⟩, ⟨180, 100⟩]).headI.date + 0 * 365) 179)) ∧
    generate_snapshots 1 [⟨0, 100⟩] 0 0 0 = [] := by
  constructor
  · have hmem : (⟨1, 179, ⟨100, none, none, 100, none, none, 0, "neutral", "hard"⟩⟩ :
        SnapshotRec) ∈ generate_snapshots 1 [⟨0, 100⟩, ⟨90, 0⟩, ⟨180, 100⟩] 0 0 179 := by
      norm_num [generate_snapshots, sortPrices, snapLoop, compute_outcome, get_price,
        optionalReturn, classify_outcome, classify_difficulty, List.insertionSort,
        List.orderedInsert, List.find?]
      decide
    exact (generate_snapshots_window 1 [⟨0, 100⟩, ⟨90, 0⟩, ⟨180, 100⟩] 0 0 179).1 _ hmem
  · exact (generate_snapshots_window 1 [⟨0, 100⟩] 0 0 0).2.2 (by decide)

/-- C5: whenever financial years accompany a snapshot, they number at most 5,
are in ascending fiscal-year order, and each comes from a stored financials
row of that stock filed on or before the snapshot date — no year with
report_date strictly after the snapshot date is included. -/
theorem get_financials_for_snapshot_spec (db : GameDB) (stock_id snapshot_date : Int) :
    (get_financials_for_snapshot db stock_id snapshot_date).length ≤ 5 ∧
    List.Pairwise (fun a b : FinancialYear => a.fiscal_year ≤ b.fiscal_year)
      (get_financials_for_snapshot db stock_id snapshot_date) ∧
    ∀ y ∈ get_financials_for_snapshot db stock_id snapshot_date,
      ∃ f ∈ db.financials, f.stock_id = stock_id ∧ f.report_date ≤ snapshot_date ∧
        y = toFinancialYear f := by
  unfold get_financials_for_snapshot
  dsimp only
  haveI : IsTotal FinRow (fun a b : FinRow => b.fiscal_year ≤ a.fiscal_year) :=
    ⟨fun a b => le_total b.fiscal_year a.fiscal_year⟩
  haveI : IsTrans FinRow (fun a b : FinRow => b.fiscal_year ≤ a.fiscal_year) :=
    ⟨fun a b c hab hbc => le_trans hbc hab⟩
  refine ⟨?_, ?_, ?_⟩
  · rw [List.length_map, List.length_reverse, List.length_take]
    exact min_le_left _ _
  · have hs := List.sorted_insertionSort (fun a b : FinRow => b.fiscal_year ≤ a.fiscal_year)
      (db.financials.filter fun f =>
        decide (f.stock_id = stock_id ∧ f.report_date ≤ snapshot_date))
    have ht := hs.sublist (List.take_sublist 5 _)
    have hrev := List.pairwise_reverse.mpr ht
    rw [List.pairwise_map]
    exact hrev
  · intro y hy
    rw [List.mem_map] at hy
    obtain ⟨f, hf, hyf⟩ := hy
    rw [List.mem_reverse] at hf
    have hf2 := (List.take_sublist 5 _).subset hf
    rw [List.mem_insertionSort] at hf2
    rw [List.mem_filter] at hf2
    obtain ⟨hmem, hp⟩ := hf2
    have hp2 := of_decide_eq_true hp
    exact ⟨f, hmem, hp2.1, hp2.2, hyf.symm⟩

/-- Witness for C5 on a two-row financials table where only the 2020 year is
filed before the snapshot date. -/
theorem get_financials_for_snapshot_spec_witness :
    ∃ f ∈ (GameDB.mk [] [] []
        [⟨1, 2020, 50, none, none, none, none, none, none, none, none⟩,
         ⟨1, 2021, 400, none, none, none, none, none, none, none, none⟩]).financials,
      f.stock_id = 1 ∧ f.report_date ≤ 100 ∧
        toFinancialYear ⟨1, 2020, 50, none, none, none, none, none, none, none, none⟩ =
          toFinancialYear f := by
  refine (get_financials_for_snapshot_spec (GameDB.mk [] [] []
    [⟨1, 2020, 50, none, none, none, none, none, none, none, none⟩,
     ⟨1, 2021, 400, none, none, none, none, none, none, none, none⟩]) 1 100).2.2
    (toFinancialYear ⟨1, 2020, 50, none, none, none, none, none, none, none, none⟩)
    (by decide)

/-- C7: reveal_outcome rejects a choice other than value/trap with
InvalidChoice and an unknown snapshot id with NotFound, in both cases leaving
the database unchanged; on success it leaves every other table unchanged and
rewrites the snapshots table so that exactly the rows with the requested id
get times_played + 1 and correct_guesses + 1 precisely when the player choice
equals the stored outcome label. -/
theorem reveal_outcome_spec (plus24mo : Int → Int) (db : GameDB) (snapshot_id : Int)
    (player_choice : String) :
    (player_choice ≠ "value" ∧ player_choice ≠ "trap" →
      reveal_outcome plus24mo db snapshot_id player_choice =
        (Except.error ApiError.invalidChoice, db)) ∧
    ((player_choice = "value" ∨ player_choice = "trap") →
      (∀ s ∈ db.snapshots, s.id ≠ snapshot_id) →
      reveal_outcome plus24mo db snapshot_id player_choice =
        (Except.error ApiError.notFound, db)) ∧
    (∀ resp db2,
      reveal_outcome plus24mo db snapshot_id player_choice = (Except.ok resp, db2) →
      resp.is_correct = (resp.outcome_label == player_choice) ∧
      db2.stocks = db.stocks ∧ db2.price_history = db.price_history ∧
      db2.financials = db.financials ∧
      db2.snapshots = db.snapshots.map fun r =>
        if r.id = snapshot_id then
          { r with
            times_played := r.times_played + 1
            correct_guesses := r.correct_guesses +
              (if resp.outcome_label = player_choice then 1 else 0) }
        else r) := by
  refine ⟨fun h => ?_, fun h1 h2 => ?_, fun resp db2 h => ?_⟩
  · unfold reveal_outcome
    rw [if_pos h]
  · have hcond : ¬ (player_choice ≠ "value" ∧ player_choice ≠ "trap") := by
      rcases h1 with h1 | h1 <;> simp [h1]
    have hjoin : joinSnapshotStock db snapshot_id = none := by
      unfold joinSnapshotStock
      have hfm : (db.snapshots.filterMap fun s =>
          if s.id = snapshot_id then
            (db.stocks.find? fun st => st.id = s.stock_id).map fun st => (s, st)
          else none) = [] := by
        rw [List.filterMap_eq_nil_iff]
        intro s hs
        rw [if_neg (h2 s hs)]
      rw [hfm]
      rfl
    unfold reveal_outcome
    rw [if_neg hcond]
    simp only [hjoin]
  · by_cases hc : player_choice ≠ "value" ∧ player_choice ≠ "trap"
    · unfold reveal_outcome at h
      rw [if_pos hc] at h
      simp at h
    · unfold reveal_outcome at h
      rw [if_neg hc] at h
      cases hjoin : joinSnapshotStock db snapshot_id with
      | none =>
        rw [hjoin] at h
        simp at h
      | some p =>
        obtain ⟨s, st⟩ := p
        rw [hjoin] at h
        dsimp only at h
        rw [Prod.mk.injEq] at h
        obtain ⟨hresp, hdb⟩ := h
        have hresp2 := Except.ok.inj hresp
        subst hresp2
        subst hdb
        have hpc : player_choice = "value" ∨ player_choice = "trap" := by
          by_cases hv : player_choice = "value"
          · exact Or.inl hv
          · by_cases ht2 : player_choice = "trap"
            · exact Or.inr ht2
            · exact absurd ⟨hv, ht2⟩ hc
        have hic : ((player_choice == "value" && s.outcome_label == "value") ||
            (player_choice == "trap" && s.outcome_label == "trap")) =
            (s.outcome_label == player_choice) := by
          rcases hpc with hv | hv <;> subst hv <;>
            by_cases ho : s.outcome_label = "value" <;>
              by_cases ho2 : s.outcome_label = "trap" <;>
                simp [ho, ho2]
        refine ⟨hic, rfl, rfl, rfl, ?_⟩
        dsimp only
        apply List.map_congr_left
        intro r _
        by_cases hid : r.id = snapshot_id
        · rw [if_pos hid, if_pos hid]
          rcases hpc with hv | hv <;> subst hv <;>
            by_cases ho : s.outcome_label = "value" <;>
              by_cases ho2 : s.outcome_label = "trap" <;>
                simp [ho, ho2]
        · rw [if_neg hid, if_neg hid]

/-- The concrete database used to witness C7: one stock, one playable
snapshot with id 5 and outcome "value". -/
def dbW : GameDB :=
  { stocks := [⟨1, "AAPL", "Apple", "Maple", none, none, true⟩]
    snapshots := [⟨5, 1, 0, 10, 13, 1, "value", 0, 0⟩]
    price_history := []
    financials := [] }

/-- The response the C7 witness run produces. -/
def respW : RevealResp :=
  { ticker := "AAPL"
    company_name := "Apple"
    snapshot_date := 0
    price_at_snapshot := 10
    price_at_24mo := 13
    return_24mo := 1
    outcome_label := "value"
    player_choice := "value"
    is_correct := true
    price_series := [] }

/-- Witness for C7: invalid choice and unknown id fail without touching the
database, and a successful reveal reports correctness per the stored label. -/
theorem reveal_outcome_spec_witness :
    reveal_outcome (fun d => d + 720) dbW 5 "foo" =
      (Except.error ApiError.invalidChoice, dbW) ∧
    reveal_outcome (fun d => d + 720) dbW 99 "value" =
      (Except.error ApiError.notFound, dbW) ∧
    respW.is_correct = (respW.outcome_label == "value") := by
  refine ⟨(reveal_outcome_spec (fun d => d + 720) dbW 5 "foo").1 (by decide),
    (reveal_outcome_spec (fun d => d + 720) dbW 99 "value").2.1 (Or.inl rfl) (by decide),
    ((reveal_outcome_spec (fun d => d + 720) dbW 5 "value").2.2 respW
      (GameDB.mk [⟨1, "AAPL", "Apple", "Maple", none, none, true⟩]
        [⟨5, 1, 0, 10, 13, 1, "value", 1, 1⟩] [] []) rfl).1⟩

/-- C6 counterexample: ticker "AAPL" resolves to a company but has no price
history; the job flags it failed, yet its upserted instrument row is in the
committed database after the run — the claim that a mid-processing failure
leaves none of the ticker's rows committed is false. -/
theorem seed_failed_ticker_counterexample :
    (seed_tickers_with_rate_limit (fun _ _ => "Maple Syrup Industrial")
        (fun _ => ⟨"Acme", none, none, "large", [], [], false⟩)
        ["AAPL"] false 10 ⟨[], []⟩).2.failed = 1 ∧
    Row.stock "AAPL" "Acme" "Maple Syrup Industrial" none none "large" ∈
      (seed_tickers_with_rate_limit (fun _ _ => "Maple Syrup Industrial")
        (fun _ => ⟨"Acme", none, none, "large", [], [], false⟩)
        ["AAPL"] false 10 ⟨[], []⟩).1.committed := by
  decide

/-- Per-ticker bookkeeping of the seeding loop: every ticker adds exactly one
to processed and exactly one to successful + failed, while status and total
are untouched. -/
theorem seedLoop_counts (nameGen : Option String → List String → String)
    (src : String → TickerData) (force : Bool) (batch_size : Nat) :
    ∀ (l : List String) (i : Nat) (db : SeedDB) (prog : Progress) (used : List String),
      (seedLoop nameGen src force batch_size l i db prog used).2.1.processed =
          prog.processed + l.length ∧
        (seedLoop nameGen src force batch_size l i db prog used).2.1.successful +
            (seedLoop nameGen src force batch_size l i db prog used).2.1.failed =
          prog.successful + prog.failed + l.length ∧
        (seedLoop nameGen src force batch_size l i db prog used).2.1.status = prog.status ∧
        (seedLoop nameGen src force batch_size l i db prog used).2.1.total = prog.total := by
  intro l
  induction l with
  | nil =>
    intro i db prog used
    simp [seedLoop]
  | cons t rest ih =>
    intro i db prog used
    simp only [seedLoop]
    by_cases hr : (src t).raises = true
    · rw [if_pos hr]
      obtain ⟨h1, h2, h3, h4⟩ := ih (i + 1) _ _ _
      refine ⟨h1.trans (by dsimp; omega), ?_, h3.trans rfl, h4.trans rfl⟩
      rw [h2]
      dsimp
      omega
    · rw [if_neg hr]
      by_cases hs : (seed_single_ticker nameGen db (src t) t used force).2.success = true
      · rw [if_pos hs]
        obtain ⟨h1, h2, h3, h4⟩ := ih (i + 1) _ _ _
        refine ⟨h1.trans (by dsimp; omega), ?_, h3.trans rfl, h4.trans rfl⟩
        rw [h2]
        dsimp
        omega
      · rw [if_neg hs]
        obtain ⟨h1, h2, h3, h4⟩ := ih (i + 1) _ _ _
        refine ⟨h1.trans (by dsimp; omega), ?_, h3.trans rfl, h4.trans rfl⟩
        rw [h2]
        dsimp
        omega

/-- Running the loop over a concatenation passes through the state reached
after the first part: the state "after each ticker" of a job is the loop run
on the corresponding prefix. -/
theorem seedLoop_append (nameGen : Option String → List String → String)
    (src : String → TickerData) (force : Bool) (batch_size : Nat) :
    ∀ (l1 l2 : List String) (i : Nat) (db : SeedDB) (prog : Progress) (used : List String),
      seedLoop nameGen src force batch_size (l1 ++ l2) i db prog used =
        (fun m => seedLoop nameGen src force batch_size l2 (i + l1.length) m.1 m.2.1 m.2.2)
          (seedLoop nameGen src force batch_size l1 i db prog used) := by
  intro l1
  induction l1 with
  | nil =>
    intro l2 i db prog used
    simp [seedLoop]
  | cons t rest ih =>
    intro l2 i db prog used
    simp only [List.cons_append, seedLoop, List.append_eq]
    rw [ih l2 (i + 1)]
    have harith : i + 1 + rest.length = i + (rest.length + 1) := by omega
    rw [harith]
    rfl

/-- C10: the progress record stays consistent through a seeding job — after
any prefix of the ticker list, processed = successful + failed and
processed ≤ total, and on normal completion processed = total, the status is
completed and current_ticker is cleared, for every ticker list and every mix
of per-ticker successes, recorded failures and exceptions. -/
theorem seed_progress_invariant (nameGen : Option String → List String → String)
    (src : String → TickerData) (force : Bool) (batch_size : Nat) (db0 : SeedDB)
    (pre post : List String) :
    (seedLoop nameGen src force batch_size (pre ++ post) 0 db0
        (initProgress (pre ++ post).length) (usedNamesOf db0) =
      (fun m => seedLoop nameGen src force batch_size post pre.length m.1 m.2.1 m.2.2)
        (seedLoop nameGen src force batch_size pre 0 db0
          (initProgress (pre ++ post).length) (usedNamesOf db0))) ∧
    ((seedLoop nameGen src force batch_size pre 0 db0
        (initProgress (pre ++ post).length) (usedNamesOf db0)).2.1.processed =
      (seedLoop nameGen src force batch_size pre 0 db0
        (initProgress (pre ++ post).length) (usedNamesOf db0)).2.1.successful +
      (seedLoop nameGen src force batch_size pre 0 db0
        (initProgress (pre ++ post).length) (usedNamesOf db0)).2.1.failed ∧
     (seedLoop nameGen src force batch_size pre 0 db0
        (initProgress (pre ++ post).length) (usedNamesOf db0)).2.1.processed ≤
       (pre ++ post).length) ∧
    ((seed_tickers_with_rate_limit nameGen src (pre ++ post) force batch_size db0).2.processed =
        (pre ++ post).length ∧
      (seed_tickers_with_rate_limit nameGen src (pre ++ post) force batch_size db0).2.status =
        JobStatus.completed ∧
      (seed_tickers_with_rate_limit nameGen src (pre ++ post) force batch_size db0).2.current_ticker =
        none ∧
      (seed_tickers_with_rate_limit nameGen src (pre ++ post) force batch_size db0).2.total =
        (pre ++ post).length) := by
  refine ⟨?_, ?_, ?_⟩
  · have h := seedLoop_append nameGen src force batch_size pre post 0 db0
      (initProgress (pre ++ post).length) (usedNamesOf db0)
    rw [h]
    have : (0 : Nat) + pre.length = pre.length := by omega
    rw [this]
  · obtain ⟨h1, h2, h3, h4⟩ := seedLoop_counts nameGen src force batch_size pre 0 db0
      (initProgress (pre ++ post).length) (usedNamesOf db0)
    constructor
    · rw [h1, h2]
      dsimp [initProgress]
    · rw [h1]
      dsimp [initProgress]
      rw [List.length_append]
      omega
  · obtain ⟨h1, h2, h3, h4⟩ := seedLoop_counts nameGen src force batch_size (pre ++ post) 0
      db0 (initProgress (pre ++ post).length) (usedNamesOf db0)
    unfold seed_tickers_with_rate_limit
    dsimp only
    refine ⟨?_, rfl, rfl, ?_⟩
    · rw [h1]
      dsimp [initProgress]
      omega
    · rw [h4]
      dsimp [initProgress]

/-- An `execute` never removes a visible row. -/
theorem exec_visible_mono (db : SeedDB) (x r : Row) (h : r ∈ db.visible) :
    r ∈ (db.exec x).visible := by
  simp only [SeedDB.visible, SeedDB.exec] at h ⊢
  rw [List.mem_append] at h
  rcases h with h | h
  · exact List.mem_append_left _ h
  · exact List.mem_append_right _ (List.mem_append_left _ h)

/-- An executed row is visible on the connection. -/
theorem exec_visible_self (db : SeedDB) (x : Row) : x ∈ (db.exec x).visible := by
  simp [SeedDB.visible, SeedDB.exec]

/-- A commit does not change what the connection sees. -/
theorem commit_visible_iff (db : SeedDB) (r : Row) :
    r ∈ db.commit.visible ↔ r ∈ db.visible := by
  simp [SeedDB.visible, SeedDB.commit]

/-- After a commit, the committed log is exactly what was visible. -/
theorem commit_committed (db : SeedDB) : db.commit.committed = db.visible := rfl

/-- An insert guarded by an existence check (`INSERT OR IGNORE`) never removes
a visible row. -/
theorem ifExec_visible_mono (d : SeedDB) (c : Prop) [Decidable c] (x r : Row)
    (h : r ∈ d.visible) : r ∈ (if c then d else d.exec x).visible := by
  by_cases hc : c
  · rw [if_pos hc]
    exact h
  · rw [if_neg hc]
    exact exec_visible_mono _ _ _ h

/-- Folding append-only steps over a list never removes a visible row. -/
theorem foldl_visible_mono {α : Type} (step : SeedDB → α → SeedDB)
    (hstep : ∀ d a r, r ∈ d.visible → r ∈ (step d a).visible) :
    ∀ (l : List α) (d : SeedDB) (r : Row), r ∈ d.visible → r ∈ (l.foldl step d).visible := by
  intro l
  induction l with
  | nil => intro d r h; exact h
  | cons a as ih =>
    intro d r h
    exact ih (step d a) r (hstep d a r h)

/-- Folding steps that only touch the transaction leaves the committed log
unchanged. -/
theorem foldl_committed_eq {α : Type} (step : SeedDB → α → SeedDB)
    (hstep : ∀ d a, (step d a).committed = d.committed) :
    ∀ (l : List α) (d : SeedDB), (l.foldl step d).committed = d.committed := by
  intro l
  induction l with
  | nil => intro d; rfl
  | cons a as ih =>
    intro d
    rw [List.foldl_cons, ih (step d a), hstep]

/-- A row matched by `isPriceFor` is a price row with that key. -/
theorem isPriceFor_shape (r : Row) (t : String) (d : Int)
    (h : r.isPriceFor t d = true) : ∃ c, r = Row.price t d c := by
  cases r with
  | price tk dte c =>
    simp only [Row.isPriceFor, Bool.and_eq_true, beq_iff_eq] at h
    exact ⟨c, by rw [h.1, h.2]⟩
  | stock tk a b c2 d2 e => simp [Row.isStockFor, Row.isPriceFor] at h
  | fin tk y => simp [Row.isPriceFor] at h
  | snap tk dte => simp [Row.isPriceFor] at h

/-- A row matched by `isSnapFor` is the snapshot row with that key. -/
theorem isSnapFor_shape (r : Row) (t : String) (d : Int)
    (h : r.isSnapFor t d = true) : r = Row.snap t d := by
  cases r with
  | snap tk dte =>
    simp only [Row.isSnapFor, Bool.and_eq_true, beq_iff_eq] at h
    rw [h.1, h.2]
  | stock tk a b c2 d2 e => simp [Row.isSnapFor] at h
  | price tk dte c => simp [Row.isSnapFor] at h
  | fin tk y => simp [Row.isSnapFor] at h

/-- After the price-insert loop, every fetched price date has a visible price
row (the freshly inserted one, or the pre-existing row the OR-IGNORE kept). -/
theorem priceFold_present (tU : String) :
    ∀ (l : List PricePoint) (d : SeedDB), ∀ p ∈ l,
      ∃ c, Row.price tU p.date c ∈
        (l.foldl (fun d2 p2 =>
          if d2.visible.any fun r => r.isPriceFor tU p2.date then d2
          else d2.exec (Row.price tU p2.date p2.adj_close)) d).visible := by
  intro l
  induction l with
  | nil => intro d p hp; cases hp
  | cons q qs ih =>
    intro d p hp
    rw [List.mem_cons] at hp
    rw [List.foldl_cons]
    rcases hp with hp | hp
    · subst hp
      by_cases hc : (d.visible.any fun r => r.isPriceFor tU p.date) = true
      · rw [List.any_eq_true] at hc
        obtain ⟨r, hr, hm⟩ := hc
        obtain ⟨c, hshape⟩ := isPriceFor_shape r tU p.date hm
        subst hshape
        exact ⟨c, foldl_visible_mono _ (fun d2 a r2 h2 => ifExec_visible_mono _ _ _ _ h2)
          qs _ _ (ifExec_visible_mono _ _ _ _ hr)⟩
      · refine ⟨p.adj_close, foldl_visible_mono _
          (fun d2 a r2 h2 => ifExec_visible_mono _ _ _ _ h2) qs _ _ ?_⟩
        rw [if_neg hc]
        exact exec_visible_self _ _
    · exact ih _ p hp

/-- After the financials-insert loop, every extracted year has a visible
financials row. -/
theorem finFold_present (tU : String) :
    ∀ (l : List FinRecord) (d : SeedDB), ∀ f ∈ l,
      Row.fin tU f.fiscal_year ∈
        (l.foldl (fun d2 f2 => d2.exec (Row.fin tU f2.fiscal_year)) d).visible := by
  intro l
  induction l with
  | nil => intro d f hf; cases hf
  | cons q qs ih =>
    intro d f hf
    rw [List.mem_cons] at hf
    rw [List.foldl_cons]
    rcases hf with hf | hf
    · subst hf
      exact foldl_visible_mono _ (fun d2 a r2 h2 => exec_visible_mono _ _ _ h2) qs _ _
        (exec_visible_self _ _)
    · exact ih _ f hf

/-- After the snapshot-insert loop, every generated snapshot date has a
visible snapshot row. -/
theorem snapFold_present (tU : String) :
    ∀ (l : List SnapshotRec) (d : SeedDB), ∀ s ∈ l,
      Row.snap tU s.snapshot_date ∈
        (l.foldl (fun d2 s2 =>
          if d2.visible.any fun r => r.isSnapFor tU s2.snapshot_date then d2
          else d2.exec (Row.snap tU s2.snapshot_date)) d).visible := by
  intro l
  induction l with
  | nil => intro d s hs; cases hs
  | cons q qs ih =>
    intro d s hs
    rw [List.mem_cons] at hs
    rw [List.foldl_cons]
    rcases hs with hs | hs
    · subst hs
      by_cases hc : (d.visible.any fun r => r.isSnapFor tU s.snapshot_date) = true
      · rw [List.any_eq_true] at hc
        obtain ⟨r, hr, hm⟩ := hc
        rw [isSnapFor_shape r tU s.snapshot_date hm] at hr
        exact foldl_visible_mono _ (fun d2 a r2 h2 => ifExec_visible_mono _ _ _ _ h2)
          qs _ _ (ifExec_visible_mono _ _ _ _ hr)
      · refine foldl_visible_mono _
          (fun d2 a r2 h2 => ifExec_visible_mono _ _ _ _ h2) qs _ _ ?_
        rw [if_neg hc]
        exact exec_visible_self _ _
    · exact ih _ s hs

/-- seed_single_ticker only appends to the connection: no visible row is lost. -/
theorem seed_single_ticker_visible_mono (nameGen : Option String → List String → String)
    (db : SeedDB) (data : TickerData) (ticker : String) (used : List String)
    (force : Bool) (r : Row) (h : r ∈ db.visible) :
    r ∈ (seed_single_ticker nameGen db data ticker used force).1.visible := by
  unfold seed_single_ticker
  by_cases h1 : ((db.visible.any fun r2 => r2.isStockFor (pyUpper ticker)) = true ∧
      ¬ force = true)
  · rw [if_pos h1]
    exact h
  · rw [if_neg h1]
    by_cases h2 : data.company_name = "" ∨ data.company_name = "Unknown"
    · rw [if_pos h2]
      exact h
    · rw [if_neg h2]
      dsimp only
      by_cases h3 : data.prices.isEmpty = true
      · rw [if_pos h3]
        exact exec_visible_mono _ _ _ h
      · rw [if_neg h3]
        refine foldl_visible_mono _ (fun d2 a r2 h2b => ifExec_visible_mono _ _ _ _ h2b)
          _ _ _ ?_
        refine foldl_visible_mono _ (fun d2 a r2 h2b => exec_visible_mono _ _ _ h2b)
          _ _ _ ?_
        refine foldl_visible_mono _ (fun d2 a r2 h2b => ifExec_visible_mono _ _ _ _ h2b)
          _ _ _ ?_
        exact exec_visible_mono _ _ _ h

/-- The exact step seed_single_ticker takes on a new ticker whose company
resolves but whose price history is empty: the instrument row is upserted
into the transaction, then the failure result is returned with no rollback. -/
theorem seed_single_ticker_no_prices (nameGen : Option String → List String → String)
    (db : SeedDB) (data : TickerData) (ticker : String) (used : List String) (force : Bool)
    (hname : data.company_name ≠ "" ∧ data.company_name ≠ "Unknown")
    (hprices : data.prices = [])
    (hnew : (db.visible.any fun r => r.isStockFor (pyUpper ticker)) = false) :
    seed_single_ticker nameGen db data ticker used force =
      (db.exec (Row.stock (pyUpper ticker) data.company_name (nameGen data.sector used)
        data.sector data.industry data.market_cap_tier),
       { success := false, fake_name := none, error := some "No price history found" }) := by
  unfold seed_single_ticker
  have hc1 : ¬ ((db.visible.any fun r => r.isStockFor (pyUpper ticker)) = true ∧
      ¬ force = true) := by
    rw [hnew]
    simp
  rw [if_neg hc1, if_neg (not_or.mpr ⟨hname.1, hname.2⟩), hprices]
  rfl

/-- The seeding loop only appends to the connection: no visible row is lost. -/
theorem seedLoop_visible_mono (nameGen : Option String → List String → String)
    (src : String → TickerData) (force : Bool) (batch_size : Nat) :
    ∀ (l : List String) (i : Nat) (db : SeedDB) (prog : Progress) (used : List String)
      (r : Row), r ∈ db.visible →
      r ∈ (seedLoop nameGen src force batch_size l i db prog used).1.visible := by
  intro l
  induction l with
  | nil =>
    intro i db prog used r h
    exact h
  | cons t rest ih =>
    intro i db prog used r h
    simp only [seedLoop]
    by_cases hr : (src t).raises = true
    · rw [if_pos hr]
      apply ih
      by_cases hb : (i + 1) % batch_size = 0
      · rw [if_pos hb]
        exact (commit_visible_iff _ _).mpr h
      · rw [if_neg hb]
        exact h
    · rw [if_neg hr]
      by_cases hs : (seed_single_ticker nameGen db (src t) t used force).2.success = true
      · rw [if_pos hs]
        apply ih
        by_cases hb : (i + 1) % batch_size = 0
        · rw [if_pos hb]
          exact (commit_visible_iff _ _).mpr
            (seed_single_ticker_visible_mono _ _ _ _ _ _ _ h)
        · rw [if_neg hb]
          exact seed_single_ticker_visible_mono _ _ _ _ _ _ _ h
      · rw [if_neg hs]
        apply ih
        by_cases hb : (i + 1) % batch_size = 0
        · rw [if_pos hb]
          exact (commit_visible_iff _ _).mpr
            (seed_single_ticker_visible_mono _ _ _ _ _ _ _ h)
        · rw [if_neg hb]
          exact seed_single_ticker_visible_mono _ _ _ _ _ _ _ h

/-- The loop only appends to the error list. -/
theorem seedLoop_errors_mono (nameGen : Option String → List String → String)
    (src : String → TickerData) (force : Bool) (batch_size : Nat) :
    ∀ (l : List String) (i : Nat) (db : SeedDB) (prog : Progress) (used : List String)
      (e : String × String), e ∈ prog.errors →
      e ∈ (seedLoop nameGen src force batch_size l i db prog used).2.1.errors := by
  intro l
  induction l with
  | nil =>
    intro i db prog used e h
    exact h
  | cons t rest ih =>
    intro i db prog used e h
    simp only [seedLoop]
    by_cases hr : (src t).raises = true
    · rw [if_pos hr]
      exact ih _ _ _ _ _ (List.mem_append_left _ h)
    · rw [if_neg hr]
      by_cases hs : (seed_single_ticker nameGen db (src t) t used force).2.success = true
      · rw [if_pos hs]
        exact ih _ _ _ _ _ h
      · rw [if_neg hs]
        exact ih _ _ _ _ _ (List.mem_append_left _ h)

/-- The failed counter never decreases across the loop. -/
theorem seedLoop_failed_mono (nameGen : Option String → List String → String)
    (src : String → TickerData) (force : Bool) (batch_size : Nat) :
    ∀ (l : List String) (i : Nat) (db : SeedDB) (prog : Progress) (used : List String),
      prog.failed ≤ (seedLoop nameGen src force batch_size l i db prog used).2.1.failed := by
  intro l
  induction l with
  | nil =>
    intro i db prog used
    exact le_refl _
  | cons t rest ih =>
    intro i db prog used
    simp only [seedLoop]
    by_cases hr : (src t).raises = true
    · rw [if_pos hr]
      refine le_trans ?_ (ih (i + 1) _ _ _)
      dsimp only
      omega
    · rw [if_neg hr]
      by_cases hs : (seed_single_ticker nameGen db (src t) t used force).2.success = true
      · rw [if_pos hs]
        refine le_trans ?_ (ih (i + 1) _ _ _)
        dsimp only
        omega
      · rw [if_neg hs]
        refine le_trans ?_ (ih (i + 1) _ _ _)
        dsimp only
        omega

/-- A guarded insert leaves the committed log unchanged. -/
theorem ifExec_committed (d : SeedDB) (c : Prop) [Decidable c] (x : Row) :
    (if c then d else d.exec x).committed = d.committed := by
  by_cases hc : c
  · rw [if_pos hc]
  · rw [if_neg hc]
    rfl

/-- C6 amended: (on success) whenever seed_single_ticker succeeds on freshly
fetched data (it returns the generated display name), the ticker's instrument
row, a price row for every fetched price date, a financials row for every
extracted fiscal year and a snapshot row for every generated snapshot are all
visible on the connection when the step returns, and the step crosses no
commit boundary — the committed log is exactly what it was; (on failure)
in any ticker list, a ticker whose company resolves but whose price history
is empty is flagged failed with a recorded error, yet its freshly upserted
instrument row is not rolled back and ends up in the committed database once
the job's batch/final commits have run. -/
theorem seed_ticker_transaction_rows (nameGen : Option String → List String → String) :
    (∀ (db : SeedDB) (data : TickerData) (ticker : String) (used : List String)
        (force : Bool) (db' : SeedDB) (res : SeedCallResult) (fn : String),
      seed_single_ticker nameGen db data ticker used force = (db', res) →
      res.fake_name = some fn →
      (Row.stock (pyUpper ticker) data.company_name fn data.sector data.industry
          data.market_cap_tier ∈ db'.visible) ∧
      (∀ p ∈ data.prices, ∃ c, Row.price (pyUpper ticker) p.date c ∈ db'.visible) ∧
      (∀ f ∈ data.financials, Row.fin (pyUpper ticker) f.fiscal_year ∈ db'.visible) ∧
      (∀ s ∈ generate_snapshots 0 data.prices 5 24 jan1_2023,
        Row.snap (pyUpper ticker) s.snapshot_date ∈ db'.visible) ∧
      db'.committed = db.committed ∧ res.success = true) ∧
    (∀ (src : String → TickerData) (pre post : List String) (ticker : String)
        (force : Bool) (batch_size : Nat) (db0 : SeedDB),
      (src ticker).raises = false →
      (src ticker).company_name ≠ "" ∧ (src ticker).company_name ≠ "Unknown" →
      (src ticker).prices = [] →
      ((seedLoop nameGen src force batch_size pre 0 db0
          (initProgress (pre ++ ticker :: post).length) (usedNamesOf db0)).1.visible.any
        fun r => r.isStockFor (pyUpper ticker)) = false →
      (ticker, "No price history found") ∈
        (seed_tickers_with_rate_limit nameGen src (pre ++ ticker :: post) force
          batch_size db0).2.errors ∧
      1 ≤ (seed_tickers_with_rate_limit nameGen src (pre ++ ticker :: post) force
          batch_size db0).2.failed ∧
      ∃ fn, Row.stock (pyUpper ticker) (src ticker).company_name fn (src ticker).sector
          (src ticker).industry (src ticker).market_cap_tier ∈
        (seed_tickers_with_rate_limit nameGen src (pre ++ ticker :: post) force
          batch_size db0).1.committed) := by
  constructor
  · intro db data ticker used force db' res fn h hfn
    unfold seed_single_ticker at h
    by_cases h1 : ((db.visible.any fun r2 => r2.isStockFor (pyUpper ticker)) = true ∧
        ¬ force = true)
    · rw [if_pos h1] at h
      rw [Prod.mk.injEq] at h
      rw [← h.2] at hfn
      cases hfn
    · rw [if_neg h1] at h
      by_cases h2 : data.company_name = "" ∨ data.company_name = "Unknown"
      · rw [if_pos h2] at h
        rw [Prod.mk.injEq] at h
        rw [← h.2] at hfn
        cases hfn
      · rw [if_neg h2] at h
        dsimp only at h
        by_cases h3 : data.prices.isEmpty = true
        · rw [if_pos h3] at h
          rw [Prod.mk.injEq] at h
          rw [← h.2] at hfn
          cases hfn
        · rw [if_neg h3] at h
          rw [Prod.mk.injEq] at h
          obtain ⟨hdb', hres⟩ := h
          subst hdb'
          subst hres
          obtain rfl : fn = nameGen data.sector used := (Option.some.inj hfn).symm
          refine ⟨?_, ?_, ?_, ?_, ?_, rfl⟩
          · refine foldl_visible_mono _ (fun d2 a r2 h2b => ifExec_visible_mono _ _ _ _ h2b)
              _ _ _ ?_
            refine foldl_visible_mono _ (fun d2 a r2 h2b => exec_visible_mono _ _ _ h2b)
              _ _ _ ?_
            refine foldl_visible_mono _ (fun d2 a r2 h2b => ifExec_visible_mono _ _ _ _ h2b)
              _ _ _ ?_
            exact exec_visible_self _ _
          · intro p hp
            obtain ⟨c, hc⟩ := priceFold_present (pyUpper ticker) data.prices _ p hp
            refine ⟨c, ?_⟩
            refine foldl_visible_mono _ (fun d2 a r2 h2b => ifExec_visible_mono _ _ _ _ h2b)
              _ _ _ ?_
            exact foldl_visible_mono _ (fun d2 a r2 h2b => exec_visible_mono _ _ _ h2b)
              _ _ _ hc
          · intro f hf
            refine foldl_visible_mono _ (fun d2 a r2 h2b => ifExec_visible_mono _ _ _ _ h2b)
              _ _ _ ?_
            exact finFold_present (pyUpper ticker) data.financials _ f hf
          · intro s hs
            exact snapFold_present (pyUpper ticker) _ _ s hs
          · rw [foldl_committed_eq
              (fun d2 (s2 : SnapshotRec) => if (d2.visible.any fun r =>
                  r.isSnapFor (pyUpper ticker) s2.snapshot_date) = true
                then d2 else d2.exec (Row.snap (pyUpper ticker) s2.snapshot_date))
              (fun d2 a => ifExec_committed _ _ _)]
            rw [foldl_committed_eq
              (fun d2 (f2 : FinRecord) => d2.exec (Row.fin (pyUpper ticker) f2.fiscal_year))
              (fun d2 a => rfl)]
            rw [foldl_committed_eq
              (fun d2 (p2 : PricePoint) => if (d2.visible.any fun r =>
                  r.isPriceFor (pyUpper ticker) p2.date) = true
                then d2 else d2.exec (Row.price (pyUpper ticker) p2.date p2.adj_close))
              (fun d2 a => ifExec_committed _ _ _)]
            rfl
  · intro src pre post ticker force batch_size db0 hraiseF hnameF hpricesF hnewF
    unfold seed_tickers_with_rate_limit
    dsimp only
    rw [seedLoop_append nameGen src force batch_size pre (ticker :: post) 0 db0
      (initProgress (pre ++ ticker :: post).length) (usedNamesOf db0)]
    dsimp only
    rw [Nat.zero_add]
    have hsingle := seed_single_ticker_no_prices nameGen
      (seedLoop nameGen src force batch_size pre 0 db0
        (initProgress (pre ++ ticker :: post).length) (usedNamesOf db0)).1
      (src ticker) ticker
      (seedLoop nameGen src force batch_size pre 0 db0
        (initProgress (pre ++ ticker :: post).length) (usedNamesOf db0)).2.2
      force hnameF hpricesF hnewF
    have hstep : seedLoop nameGen src force batch_size (ticker :: post) pre.length
        (seedLoop nameGen src force batch_size pre 0 db0
          (initProgress (pre ++ ticker :: post).length) (usedNamesOf db0)).1
        (seedLoop nameGen src force batch_size pre 0 db0
          (initProgress (pre ++ ticker :: post).length) (usedNamesOf db0)).2.1
        (seedLoop nameGen src force batch_size pre 0 db0
          (initProgress (pre ++ ticker :: post).length) (usedNamesOf db0)).2.2 =
        seedLoop nameGen src force batch_size post (pre.length + 1)
          (if (pre.length + 1) % batch_size = 0
            then ((seedLoop nameGen src force batch_size pre 0 db0
                (initProgress (pre ++ ticker :: post).length) (usedNamesOf db0)).1.exec
              (Row.stock (pyUpper ticker) (src ticker).company_name
                (nameGen (src ticker).sector
                  (seedLoop nameGen src force batch_size pre 0 db0
                    (initProgress (pre ++ ticker :: post).length) (usedNamesOf db0)).2.2)
                (src ticker).sector (src ticker).industry
                (src ticker).market_cap_tier)).commit
            else (seedLoop nameGen src force batch_size pre 0 db0
                (initProgress (pre ++ ticker :: post).length) (usedNamesOf db0)).1.exec
              (Row.stock (pyUpper ticker) (src ticker).company_name
                (nameGen (src ticker).sector
                  (seedLoop nameGen src force batch_size pre 0 db0
                    (initProgress (pre ++ ticker :: post).length) (usedNamesOf db0)).2.2)
                (src ticker).sector (src ticker).industry
                (src ticker).market_cap_tier))
          { status := (seedLoop nameGen src force batch_size pre 0 db0
              (initProgress (pre ++ ticker :: post).length) (usedNamesOf db0)).2.1.status
            total := (seedLoop nameGen src force batch_size pre 0 db0
              (initProgress (pre ++ ticker :: post).length) (usedNamesOf db0)).2.1.total
            processed := (seedLoop nameGen src force batch_size pre 0 db0
              (initProgress (pre ++ ticker :: post).length) (usedNamesOf db0)).2.1.processed + 1
            successful := (seedLoop nameGen src force batch_size pre 0 db0
              (initProgress (pre ++ ticker :: post).length) (usedNamesOf db0)).2.1.successful
            failed := (seedLoop nameGen src force batch_size pre 0 db0
              (initProgress (pre ++ ticker :: post).length) (usedNamesOf db0)).2.1.failed + 1
            current_ticker := some ticker
            errors := (seedLoop nameGen src force batch_size pre 0 db0
              (initProgress (pre ++ ticker :: post).length) (usedNamesOf db0)).2.1.errors ++
                [(ticker, "No price history found")] }
          (seedLoop nameGen src force batch_size pre 0 db0
            (initProgress (pre ++ ticker :: post).length) (usedNamesOf db0)).2.2 := by
      simp only [seedLoop, hraiseF, Bool.false_eq_true, if_false, hsingle]
    rw [hstep]
    refine ⟨?_, ?_, ?_⟩
    · apply seedLoop_errors_mono
      exact List.mem_append_right _ (List.mem_singleton.mpr rfl)
    · refine le_trans ?_ (seedLoop_failed_mono nameGen src force batch_size post
        (pre.length + 1) _ _ _)
      dsimp only
      omega
    · refine ⟨nameGen (src ticker).sector
        (seedLoop nameGen src force batch_size pre 0 db0
          (initProgress (pre ++ ticker :: post).length) (usedNamesOf db0)).2.2, ?_⟩
      rw [commit_committed]
      apply seedLoop_visible_mono
      by_cases hb : (pre.length + 1) % batch_size = 0
      · rw [if_pos hb]
        exact (commit_visible_iff _ _).mpr (exec_visible_self _ _)
      · rw [if_neg hb]
        exact exec_visible_self _ _

/-- Witness for the amended C6: a concrete successful ticker leaves its
stock, price and financials rows in the open transaction with nothing newly
committed, and a concrete no-price-history ticker is flagged failed yet its
instrument row reaches the committed database. -/
theorem seed_ticker_transaction_rows_witness :
    (Row.stock (pyUpper "AAPL") "Acme" "Maple One" none none "large" ∈
      (SeedDB.mk []
        [Row.stock "AAPL" "Acme" "Maple One" none none "large",
         Row.price "AAPL" 0 100, Row.fin "AAPL" 0]).visible) ∧
    (∃ c, Row.price (pyUpper "AAPL") 0 c ∈
      (SeedDB.mk []
        [Row.stock "AAPL" "Acme" "Maple One" none none "large",
         Row.price "AAPL" 0 100, Row.fin "AAPL" 0]).visible) ∧
    (Row.fin (pyUpper "AAPL") 0 ∈
      (SeedDB.mk []
        [Row.stock "AAPL" "Acme" "Maple One" none none "large",
         Row.price "AAPL" 0 100, Row.fin "AAPL" 0]).visible) ∧
    ((SeedDB.mk []
        [Row.stock "AAPL" "Acme" "Maple One" none none "large",
         Row.price "AAPL" 0 100, Row.fin "AAPL" 0]).committed = []) ∧
    (("msft", "No price history found") ∈
      (seed_tickers_with_rate_limit (fun _ _ => "Maple One")
        (fun _ => ⟨"Beta Corp", none, none, "mid", [], [], false⟩)
        ["msft"] false 3 ⟨[], []⟩).2.errors) ∧
    (1 ≤ (seed_tickers_with_rate_limit (fun _ _ => "Maple One")
        (fun _ => ⟨"Beta Corp", none, none, "mid", [], [], false⟩)
        ["msft"] false 3 ⟨[], []⟩).2.failed) ∧
    (∃ fn, Row.stock (pyUpper "msft") "Beta Corp" fn none none "mid" ∈
      (seed_tickers_with_rate_limit (fun _ _ => "Maple One")
        (fun _ => ⟨"Beta Corp", none, none, "mid", [], [], false⟩)
        ["msft"] false 3 ⟨[], []⟩).1.committed) := by
  have hA := (seed_ticker_transaction_rows (fun _ _ => "Maple One")).1
    ⟨[], []⟩ ⟨"Acme", none, none, "large", [⟨0, 100⟩], [finRecEx], false⟩ "AAPL" [] false
    (SeedDB.mk []
      [Row.stock "AAPL" "Acme" "Maple One" none none "large",
       Row.price "AAPL" 0 100, Row.fin "AAPL" 0])
    ⟨true, some "Maple One", none⟩ "Maple One" rfl rfl
  have hB := (seed_ticker_transaction_rows (fun _ _ => "Maple One")).2
    (fun _ => ⟨"Beta Corp", none, none, "mid", [], [], false⟩) [] [] "msft" false 3
    ⟨[], []⟩ rfl ⟨by decide, by decide⟩ rfl rfl
  exact ⟨hA.1, hA.2.1 ⟨0, 100⟩ (List.mem_singleton.mpr rfl),
    hA.2.2.1 finRecEx (List.mem_singleton.mpr rfl), hA.2.2.2.2.1,
    hB.1, hB.2.1, hB.2.2⟩

end TrapValue
